import Mathlib

/-!
# Verification of the ubuntu-nix-sbom generator and merger

This file is a shallow embedding, in Lean 4, of the core string-processing
logic of the ubuntu-nix-sbom repository: the license normalizer
(`normalizeLicense`), the CPE reference repairer (`cleanExternalRefs`,
`fixCPEFormat`, `sanitizeCPEComponent`), the SPDX-identifier re-namespacing
(`renumberSPDXID`), the document assembler (`generate`) and the document
merger (`mergeDocs`, `mergeRun`).

Strings are modelled as `List Char`.  The two Go regular expressions
(the SPDX-expression pattern of the normalizer and the full CPE 2.3 grammar
of the repairer) are embedded as regular-expression terms evaluated by a
Brzozowski-derivative matcher, mirroring Go's RE2 full-match semantics of
the anchored patterns.  External effects (file reads, subprocess output,
timestamps) are passed in as explicit parameters.
-/

namespace UbuntuNixSbom

/-- Strings are modelled as lists of characters. -/
abbrev Str := List Char

/-- Conversion from Lean string literals to the `Str` model. -/
def str (s : String) : Str := s.toList

/-! ## A small regular-expression engine

Used to embed, faithfully, the two anchored Go regular expressions of the
repository.  `chr p` matches a single character satisfying `p`. -/

/-- Regular expressions over characters, with character-class leaves. -/
inductive RE where
  | emp : RE
  | eps : RE
  | chr : (Char → Bool) → RE
  | cat : RE → RE → RE
  | alt : RE → RE → RE
  | star : RE → RE

/-- Does the regular expression accept the empty word? -/
def RE.nullable : RE → Bool
  | .emp => false
  | .eps => true
  | .chr _ => false
  | .cat a b => a.nullable && b.nullable
  | .alt a b => a.nullable || b.nullable
  | .star _ => true

/-- Smart alternation: collapses the empty language. -/
def RE.mkAlt : RE → RE → RE
  | .emp, b => b
  | a, .emp => a
  | a, b => .alt a b

/-- Smart concatenation: collapses the empty language and the empty word. -/
def RE.mkCat : RE → RE → RE
  | .emp, _ => .emp
  | _, .emp => .emp
  | .eps, b => b
  | a, .eps => a
  | a, b => .cat a b

/-- Brzozowski derivative of a regular expression by one character. -/
def RE.deriv : RE → Char → RE
  | .emp, _ => .emp
  | .eps, _ => .emp
  | .chr p, c => if p c then .eps else .emp
  | .cat a b, c => .mkAlt (.mkCat (a.deriv c) b) (if a.nullable then b.deriv c else .emp)
  | .alt a b, c => .mkAlt (a.deriv c) (b.deriv c)
  | .star a, c => .mkCat (a.deriv c) (.star a)

/-- Full-string match (the embedded Go patterns are `^...$`-anchored). -/
def RE.matches (r : RE) (s : Str) : Bool :=
  (s.foldl RE.deriv r).nullable

/-- One-or-more repetition. -/
def RE.plus (r : RE) : RE := .cat r (.star r)

/-- Zero-or-one repetition. -/
def RE.opt (r : RE) : RE := .alt .eps r

/-- The regular expression matching one literal string. -/
def RE.lit (s : Str) : RE :=
  s.foldr (fun c r => .cat (.chr (fun d => d = c)) r) .eps

end UbuntuNixSbom

namespace UbuntuNixSbom

/-! ## The SPDX-expression pattern of the license normalizer

Embeds the Go pattern `^[A-Za-z0-9.\-]+(\s+(AND|OR|WITH)\s+[A-Za-z0-9.\-]+)*$`
(ubuntu generator, `normalizeLicense`).  In RE2, `\s` is `[\t\n\f\r ]`. -/

/-- The token character class `[A-Za-z0-9.\-]`. -/
def tokenChar (c : Char) : Bool := c.isAlpha || c.isDigit || c = '.' || c = '-'

/-- The RE2 whitespace class `\s = [\t\n\f\r ]`. -/
def wsChar (c : Char) : Bool := c = ' ' || c = '\t' || c = '\n' || c = '\x0c' || c = '\r'

/-- `AND|OR|WITH`. -/
def spdxKeyword : RE := .alt (RE.lit (str "AND")) (.alt (RE.lit (str "OR")) (RE.lit (str "WITH")))

/-- `[A-Za-z0-9.\-]+`. -/
def spdxTokenRE : RE := RE.plus (.chr tokenChar)

/-- `\s+`. -/
def spdxWs : RE := RE.plus (.chr wsChar)

/-- `^[A-Za-z0-9.\-]+(\s+(AND|OR|WITH)\s+[A-Za-z0-9.\-]+)*$`. -/
def validSPDXPattern : RE :=
  .cat spdxTokenRE (.star (.cat spdxWs (.cat spdxKeyword (.cat spdxWs spdxTokenRE))))

/-- Does a string satisfy the SPDX-expression grammar of the normalizer? -/
def matchesSPDX (s : Str) : Bool := validSPDXPattern.matches s

/-! ## The CPE 2.3 grammar of the reference repairer

Embeds the Go pattern of `cleanExternalRefs` (merger):
`^cpe:2\.3:[aho\*\-](:(((\?*|\*?)([a-zA-Z0-9\-\._]|(\\[...]))+(\?*|\*?))|[\*\-])){5}`
`(:(([a-zA-Z]{2,3}(-([a-zA-Z]{2}|[0-9]{3}))?)|[\*\-]))`
`(:(((\?*|\*?)([a-zA-Z0-9\-\._]|(\\[...]))+(\?*|\*?))|[\*\-])){4}$`. -/

/-- The part character class `[aho\*\-]`. -/
def cpePartChar (c : Char) : Bool := c = 'a' || c = 'h' || c = 'o' || c = '*' || c = '-'

/-- The unescaped component character class `[a-zA-Z0-9\-\._]`. -/
def cpeUnreserved (c : Char) : Bool := c.isAlpha || c.isDigit || c = '-' || c = '.' || c = '_'

/-- The characters allowed after a backslash escape:
`[\\\*\?!"#$%&'\(\)\+,\/:;<=>@\[\]\^`(backquote)`\{\|}~]`.
The quote, apostrophe, backquote and brace characters are written via their
code points. -/
def cpeEscaped (c : Char) : Bool :=
  c = '\\' || c = '*' || c = '?' || c = '!' || c = Char.ofNat 34 || c = '#' ||
  c = '$' || c = '%' || c = '&' || c = Char.ofNat 39 || c = '(' || c = ')' ||
  c = '+' || c = ',' || c = '/' || c = ':' || c = ';' || c = '<' || c = '=' ||
  c = '>' || c = '@' || c = '[' || c = ']' || c = '^' || c = Char.ofNat 96 ||
  c = Char.ofNat 123 || c = '|' || c = Char.ofNat 125 || c = '~'

/-- `:`. -/
def colonRE : RE := .chr (fun c => c = ':')

/-- `[a-zA-Z0-9\-\._]|(\\[...])` — one component atom. -/
def cpeBodyChar : RE := .alt (.chr cpeUnreserved) (.cat (.chr (fun c => c = '\\')) (.chr cpeEscaped))

/-- `(\?*|\*?)` — the affix allowed before/after a component's body. -/
def cpeAffix : RE := .alt (.star (.chr (fun c => c = '?'))) (RE.opt (.chr (fun c => c = '*')))

/-- `((\?*|\*?)([a-zA-Z0-9\-\._]|(\\[...]))+(\?*|\*?))|[\*\-]` — one CPE component. -/
def cpeComponent : RE :=
  .alt (.cat cpeAffix (.cat (RE.plus cpeBodyChar) cpeAffix))
       (.chr (fun c => c = '*' || c = '-'))

/-- `[a-zA-Z]`. -/
def alphaRE : RE := .chr Char.isAlpha

/-- `[0-9]`. -/
def digitRE : RE := .chr Char.isDigit

/-- `([a-zA-Z]{2,3}(-([a-zA-Z]{2}|[0-9]{3}))?)|[\*\-]` — the language component. -/
def cpeLang : RE :=
  .alt (.cat alphaRE (.cat alphaRE (.cat (RE.opt alphaRE)
          (RE.opt (.cat (.chr (fun c => c = '-'))
            (.alt (.cat alphaRE alphaRE) (.cat digitRE (.cat digitRE digitRE))))))))
       (.chr (fun c => c = '*' || c = '-'))

/-- `n`-fold repetition `r{n}`. -/
def repRE : Nat → RE → RE
  | 0, _ => .eps
  | n + 1, r => .cat r (repRE n r)

/-- The full anchored CPE 2.3 pattern of `cleanExternalRefs`. -/
def cpePattern : RE :=
  .cat (RE.lit (str "cpe:2.3:")) (.cat (.chr cpePartChar)
    (.cat (repRE 5 (.cat colonRE cpeComponent))
      (.cat (.cat colonRE cpeLang) (repRE 4 (.cat colonRE cpeComponent)))))

/-- Does a locator pass the full CPE 2.3 grammar validation? -/
def cpeValid (s : Str) : Bool := cpePattern.matches s

end UbuntuNixSbom

namespace UbuntuNixSbom

/-! ## The license normalizer (`normalizeLicense`, ubuntu generator)

`strings.TrimSpace` and `strings.ToLower` are modelled on the ASCII range
(all table keys and disqualifying patterns are ASCII). -/

/-- ASCII whitespace recognized by the trim step. -/
def isSpaceChar (c : Char) : Bool :=
  c = ' ' || c = '\t' || c = '\n' || c = '\x0b' || c = '\x0c' || c = '\r'

/-- `strings.TrimSpace`: drop leading and trailing whitespace. -/
def trimSpace (s : Str) : Str :=
  ((s.dropWhile isSpaceChar).reverse.dropWhile isSpaceChar).reverse

/-- ASCII case folding, modelling `strings.ToLower` on the ASCII range. -/
def toLowerChar (c : Char) : Char :=
  if 'A' ≤ c && c ≤ 'Z' then Char.ofNat (c.toNat + 32) else c

/-- Lowercase an entire string. -/
def lowerStr (s : Str) : Str := s.map toLowerChar

/-- The fixed replacement table of `normalizeLicense`, in source order.
Go iterates the map in unspecified order for the prefix pass; the exact-match
pass is order-independent.  The listed order is the source's textual order. -/
def replacements : List (Str × Str) :=
  [ (str "gpl-2", str "GPL-2.0-only")
  , (str "gpl-2+", str "GPL-2.0-or-later")
  , (str "gpl-3", str "GPL-3.0-only")
  , (str "gpl-3+", str "GPL-3.0-or-later")
  , (str "lgpl-2", str "LGPL-2.0-only")
  , (str "lgpl-2+", str "LGPL-2.0-or-later")
  , (str "lgpl-2.1", str "LGPL-2.1-only")
  , (str "lgpl-2.1+", str "LGPL-2.1-or-later")
  , (str "lgpl-3", str "LGPL-3.0-only")
  , (str "lgpl-3+", str "LGPL-3.0-or-later")
  , (str "apache-2", str "Apache-2.0")
  , (str "apache", str "NOASSERTION")
  , (str "bsd", str "BSD-3-Clause")
  , (str "mit/x11", str "MIT")
  , (str "expat", str "MIT")
  , (str "mit-1", str "MIT")
  , (str "mit-style", str "MIT")
  , (str "psf", str "Python-2.0")
  , (str "public-domain", str "NOASSERTION")
  , (str "openldap-2.8", str "NOASSERTION")
  , (str "hylafax", str "NOASSERTION")
  , (str "ubuntu-font-licence-1.0", str "Ubuntu-Font-1.0")
  , (str "go", str "NOASSERTION")
  , (str "epl-1", str "EPL-1.0")
  , (str "dom4j", str "NOASSERTION")
  , (str "fastcgi", str "NOASSERTION")
  , (str "other", str "NOASSERTION")
  , (str "eclipse-public-license-v1.0", str "EPL-1.0")
  , (str "edl-1.0", str "BSD-3-Clause")
  , (str "nrl-2-clause", str "NOASSERTION")
  , (str "tidy", str "NOASSERTION")
  , (str "purdue", str "NOASSERTION")
  , (str "mpl-2", str "MPL-2.0") ]

/-- Exact lookup in the replacement table (Go map indexing). -/
def lookupExact (key : Str) : List (Str × Str) → Option Str
  | [] => none
  | (k, v) :: rest => if k = key then some v else lookupExact key rest

/-- First table entry whose key is a prefix of `key` (the Go `range` loop;
iteration order of a Go map is unspecified, the source's textual order is
used here). -/
def lookupByKeyStart (key : Str) : List (Str × Str) → Option Str
  | [] => none
  | (k, v) :: rest => if k.isPrefixOf key then some v else lookupByKeyStart key rest

/-- The disqualifying substrings of `normalizeLicense`, in source order.
The apostrophe is written via its code point. -/
def invalidPatterns : List Str :=
  [ str "Copyright", str "copyright", str "Permission is hereby", str "The files"
  , str "Formerly,", str "build-aux", str "Portions", str "free software"
  , str "<", str ">", [Char.ofNat 39], str "," ]

/-- `strings.Contains`: does the string contain `pat` as a substring? -/
def containsSubstr (pat : Str) : Str → Bool
  | [] => pat.isEmpty
  | c :: rest => pat.isPrefixOf (c :: rest) || containsSubstr pat rest

/-- Does the license string contain any disqualifying substring? -/
def containsInvalidPattern (s : Str) : Bool :=
  invalidPatterns.any (fun p => containsSubstr p s)

/-- The sentinel. -/
def NOASSERTION : Str := str "NOASSERTION"

/-- `normalizeLicense` (ubuntu generator): trim; empty → sentinel; exact
table match; prefix table match; SPDX-expression grammar pass-through;
disqualifying substrings → sentinel; length > 50 → sentinel; default →
sentinel. -/
def normalizeLicense (s : Str) : Str :=
  let license := trimSpace s
  if license = [] then NOASSERTION
  else
    let licenseLower := lowerStr license
    match lookupExact licenseLower replacements with
    | some mapped => mapped
    | none =>
      match lookupByKeyStart licenseLower replacements with
      | some mapped => mapped
      | none =>
        if matchesSPDX license then license
        else if containsInvalidPattern license then NOASSERTION
        else if license.length > 50 then NOASSERTION
        else NOASSERTION

end UbuntuNixSbom

namespace UbuntuNixSbom

/-! ## The CPE reference repairer (`fixCPEFormat`, `sanitizeCPEComponent`) -/

/-- `strings.Split(s, ":")`. -/
def splitOnColon : Str → List Str
  | [] => [[]]
  | c :: cs =>
    if c = ':' then [] :: splitOnColon cs
    else
      match splitOnColon cs with
      | t :: ts => (c :: t) :: ts
      | [] => [[c]]

/-- The characters kept by the sanitizer: `[a-zA-Z0-9\-\.\*]`. -/
def isCPEKeep (c : Char) : Bool := c.isAlpha || c.isDigit || c = '-' || c = '.' || c = '*'

/-- `strings.ReplaceAll(component, "_", "-")` on one character. -/
def underscoreToDash (c : Char) : Char := if c = '_' then '-' else c

/-- Is the character a dash? -/
def isDash (c : Char) : Bool := c = '-'

/-- `strings.Trim(component, "-")`: strip leading and trailing dashes. -/
def trimDashes (s : Str) : Str :=
  ((s.dropWhile isDash).reverse.dropWhile isDash).reverse

/-- The wildcard component. -/
def starStr : Str := ['*']

/-- `sanitizeCPEComponent` (merger): underscores to dashes; empty or bare
wildcard forced to wildcard; characters outside `[a-zA-Z0-9\-\.\*]` replaced
by dashes; leading/trailing dashes trimmed; empty result forced to
wildcard. -/
def sanitizeCPEComponent (component : Str) : Str :=
  let c1 := component.map underscoreToDash
  if c1 = [] || c1 = starStr then starStr
  else
    let c2 := c1.map (fun c => if isCPEKeep c then c else '-')
    let c3 := trimDashes c2
    if c3 = [] then starStr else c3

/-- The fixed `cpe:2.3:` marker checked by `fixCPEFormat`. -/
def cpeHeader : Str := str "cpe:2.3:"

/-- The vendor/product/version selection of `fixCPEFormat` (before
sanitizing): defaults are wildcard vendor, `parts[3]` as product, wildcard
version; with a 5th component present, vendor/product come from
`parts[3]`/`parts[4]` (collapsed when equal), and the version is `parts[5]`
when present, non-empty and non-wildcard. -/
def selectVPV (parts : List Str) : Str × Str × Str :=
  if 5 ≤ parts.length then
    let ver :=
      if 6 ≤ parts.length ∧ parts.getD 5 [] ≠ [] ∧ parts.getD 5 [] ≠ starStr
      then parts.getD 5 [] else starStr
    if parts.getD 3 [] = parts.getD 4 [] then (parts.getD 3 [], parts.getD 3 [], ver)
    else (parts.getD 3 [], parts.getD 4 [], ver)
  else (starStr, parts.getD 3 [], starStr)

/-- `fmt.Sprintf("cpe:2.3:%s:%s:%s:%s:*:*:*:*:*:*:*", part, vendor, product,
version)`, written so that each field sits between explicit colons. -/
def buildCPE (part vendor product version : Str) : Str :=
  str "cpe" ++ ':' :: (str "2.3" ++ ':' :: (part ++ ':' :: (vendor ++ ':' ::
    (product ++ ':' :: (version ++ ':' :: str "*:*:*:*:*:*:*")))))

/-- `fixCPEFormat` (merger): non-`cpe:2.3:` strings and strings with fewer
than 4 colon components are returned untouched; otherwise the string is
re-derived from the part, vendor, product and version fields. -/
def fixCPEFormat (cpe : Str) : Str :=
  if cpeHeader.isPrefixOf cpe = false then cpe
  else
    let parts := splitOnColon cpe
    if parts.length < 4 then cpe
    else
      let vpv := selectVPV parts
      buildCPE (parts.getD 2 []) (sanitizeCPEComponent vpv.1)
        (sanitizeCPEComponent vpv.2.1) (sanitizeCPEComponent vpv.2.2)

/-- The validate-then-fix step that `cleanExternalRefs` applies to each
`cpe23Type` locator. -/
def repairLocator (locator : Str) : Str :=
  if cpeValid locator then locator else fixCPEFormat locator

end UbuntuNixSbom

namespace UbuntuNixSbom

/-! ## The SPDX data model (internal/spdx/types.go) -/

/-- `spdx.Checksum`. -/
structure Checksum where
  Algorithm : Str
  Value : Str
deriving DecidableEq

/-- `spdx.Verification`. -/
structure Verification where
  Value : Str
deriving DecidableEq

/-- `spdx.ExternalRef`.  The source field `Type` is named `RefType` here
because `Type` is a Lean keyword. -/
structure ExternalRef where
  Category : Str
  RefType : Str
  Locator : Str
deriving DecidableEq

/-- `spdx.Package`. -/
structure Package where
  SPDXID : Str
  Name : Str
  DownloadLocation : Str
  FilesAnalyzed : Bool
  VerificationCode : Option Verification
  Checksums : List Checksum
  HomePage : Str
  LicenseConcluded : Str
  LicenseDeclared : Str
  CopyrightText : Str
  Description : Str
  PackageVersion : Str
  Supplier : Str
  ExternalRefs : List ExternalRef
deriving DecidableEq

/-- `spdx.Relationship`. -/
structure Relationship where
  SPDXElementID : Str
  RelatedSPDXElement : Str
  RelationshipType : Str
deriving DecidableEq

/-- `spdx.CreationInfo`. -/
structure CreationInfo where
  Created : Str
  Creators : List Str
  LicenseListVersion : Str
deriving DecidableEq

/-- `spdx.Document`. -/
structure Document where
  SPDXVersion : Str
  DataLicense : Str
  SPDXID : Str
  Name : Str
  DocumentNamespace : Str
  CreationInfo : CreationInfo
  Packages : List Package
  Relationships : List Relationship
deriving DecidableEq

/-! ## Identifier re-namespacing (`renumberSPDXID`, merger) -/

/-- The fixed `SPDXRef-` marker. -/
def spdxMarker : Str := str "SPDXRef-"

/-- The submatch of Go's unanchored `SPDXRef-(.+)` at the leftmost position
where the whole pattern matches: the text after the first `SPDXRef-`
occurrence that is followed by at least one non-newline character, taken up
to the next newline (RE2 `.` does not match a newline, `(.+)` is greedy). -/
def afterMarker : Str → Option Str
  | [] => none
  | c :: cs =>
    let rest := List.drop 8 (c :: cs)
    let captured := rest.takeWhile (fun d => d ≠ '\n')
    if spdxMarker.isPrefixOf (c :: cs) ∧ captured ≠ [] then some captured
    else afterMarker cs

/-- `strings.TrimPrefix(originalID, "SPDXRef-")`. -/
def trimMarker (id : Str) : Str :=
  if spdxMarker.isPrefixOf id then List.drop 8 id else id

/-- `renumberSPDXID` (merger): rebuild the identifier as
`SPDXRef-<tag>-<base>`, where `<base>` is the regex capture when
`SPDXRef-(.+)` matches, and the marker-stripped original otherwise. -/
def renumberSPDXID (originalID tag : Str) : Str :=
  match afterMarker originalID with
  | some base => spdxMarker ++ tag ++ '-' :: base
  | none => spdxMarker ++ tag ++ '-' :: trimMarker originalID

/-! ## External-reference cleaning (`cleanExternalRefs`, merger) -/

/-- The CPE external-reference type tag. -/
def cpe23Type : Str := str "cpe23Type"

/-- `cleanExternalRefs` (merger): keep every reference, in order; for
`cpe23Type` references whose locator fails CPE validation, replace the
locator with `fixCPEFormat` of it. -/
def cleanExternalRefs : List ExternalRef → List ExternalRef
  | [] => []
  | ref :: refs =>
    (if ref.RefType = cpe23Type then
      (if cpeValid ref.Locator then ref else { ref with Locator := fixCPEFormat ref.Locator })
     else ref) :: cleanExternalRefs refs

end UbuntuNixSbom

namespace UbuntuNixSbom

/-! ## The document merger (`Merge`, merger.go)

Timestamp- and UUID-derived fields (`Name`, `DocumentNamespace`,
`CreationInfo.Created`) depend on the clock; they are passed in as a
`MergeMeta` parameter. -/

/-- The clock-derived strings of the merged document. -/
structure MergeMeta where
  Name : Str
  DocumentNamespace : Str
  Created : Str
deriving DecidableEq

/-- One step of the creator-union loop: append if not already present. -/
def addCreator (acc : List Str) (creator : Str) : List Str :=
  if creator ∈ acc then acc else acc ++ [creator]

/-- `mergeCreators` (merger): union both creator lists in first-seen order,
then add the merger-tool creator if absent. -/
def mergeCreators (ubuntuDoc nixDoc : Document) : List Str :=
  addCreator
    (nixDoc.CreationInfo.Creators.foldl addCreator
      (ubuntuDoc.CreationInfo.Creators.foldl addCreator []))
    (str "Tool: ubuntu-nix-sbom-merger-1.0")

/-- The synthetic root package of the merged document. -/
def systemPkg : Package :=
  { SPDXID := str "SPDXRef-System"
  , Name := str "Ubuntu-Nix-System"
  , DownloadLocation := NOASSERTION
  , FilesAnalyzed := false
  , VerificationCode := none
  , Checksums := []
  , HomePage := []
  , LicenseConcluded := NOASSERTION
  , LicenseDeclared := NOASSERTION
  , CopyrightText := NOASSERTION
  , Description := str "Combined Ubuntu and Nix package system"
  , PackageVersion := []
  , Supplier := []
  , ExternalRefs := [] }

/-- The identifier opening of every Ubuntu-tagged identifier. -/
def ubuntuTag : Str := str "SPDXRef-Ubuntu-"

/-- The identifier opening of every Nix-tagged identifier. -/
def nixTag : Str := str "SPDXRef-Nix-"

/-- The Ubuntu loop body of `Merge`: skip prior roots, tag the identifier. -/
def processUbuntuPkgs : List Package → List Package
  | [] => []
  | pkg :: pkgs =>
    if pkg.SPDXID = str "SPDXRef-Ubuntu-System" ∨ pkg.SPDXID = str "SPDXRef-System" then
      processUbuntuPkgs pkgs
    else
      (if ubuntuTag.isPrefixOf pkg.SPDXID then pkg
       else { pkg with SPDXID := renumberSPDXID pkg.SPDXID (str "Ubuntu") }) ::
      processUbuntuPkgs pkgs

/-- The root-recognition heuristic of the Nix loop: the name contains
"system" case-insensitively and the identifier is the document sentinel or
ends in `-System`. -/
def isNixRoot (pkg : Package) : Prop :=
  containsSubstr (str "system") (lowerStr pkg.Name) = true ∧
  (pkg.SPDXID = str "SPDXRef-DOCUMENT" ∨
    (str "-System").reverse.isPrefixOf pkg.SPDXID.reverse = true)

instance (pkg : Package) : Decidable (isNixRoot pkg) := by
  unfold isNixRoot; infer_instance

/-- The Nix loop body of `Merge`: skip recognized roots, tag the
identifier, clean the external references. -/
def processNixPkgs : List Package → List Package
  | [] => []
  | pkg :: pkgs =>
    if isNixRoot pkg then processNixPkgs pkgs
    else
      (let tagged :=
        if nixTag.isPrefixOf pkg.SPDXID then pkg
        else { pkg with SPDXID := renumberSPDXID pkg.SPDXID (str "Nix") }
       { tagged with ExternalRefs := cleanExternalRefs tagged.ExternalRefs }) ::
      processNixPkgs pkgs

/-- The CONTAINS relationship from the merged root to one package. -/
def containsRel (id : Str) : Relationship :=
  { SPDXElementID := str "SPDXRef-System"
  , RelatedSPDXElement := id
  , RelationshipType := str "CONTAINS" }

/-- The DESCRIBES relationship of the merged document. -/
def mergeDescribesRel : Relationship :=
  { SPDXElementID := str "SPDXRef-DOCUMENT"
  , RelatedSPDXElement := str "SPDXRef-System"
  , RelationshipType := str "DESCRIBES" }

/-- The document-construction part of `Merge` (after both loads succeed). -/
def mergeDocs (meta : MergeMeta) (ubuntuDoc nixDoc : Document) : Document :=
  let ubuntuPkgs := processUbuntuPkgs ubuntuDoc.Packages
  let nixPkgs := processNixPkgs nixDoc.Packages
  { SPDXVersion := str "SPDX-2.3"
  , DataLicense := str "CC0-1.0"
  , SPDXID := str "SPDXRef-DOCUMENT"
  , Name := meta.Name
  , DocumentNamespace := meta.DocumentNamespace
  , CreationInfo :=
      { Created := meta.Created
      , Creators := mergeCreators ubuntuDoc nixDoc
      , LicenseListVersion := str "3.20" }
  , Packages := systemPkg :: (ubuntuPkgs ++ nixPkgs)
  , Relationships :=
      mergeDescribesRel :: ((ubuntuPkgs ++ nixPkgs).map (fun p => containsRel p.SPDXID)) }

/-- The outcome of `loadDocument` (a file read followed by JSON decoding,
both fallible); failures carry an error message. -/
abbrev LoadResult := Except Str Document

/-- `Merge` (merger.go): load both documents, abort with a wrapped error if
either load fails, otherwise build the merged document.  The two
`LoadResult` arguments stand for the `loadDocument` outcomes on the two
paths. -/
def mergeRun (meta : MergeMeta) (ubuntuLoad nixLoad : LoadResult) : Except Str Document :=
  match ubuntuLoad with
  | Except.error e => Except.error (str "failed to load Ubuntu SBOM: " ++ e)
  | Except.ok ubuntuDoc =>
    match nixLoad with
    | Except.error e => Except.error (str "failed to load Nix SBOM: " ++ e)
    | Except.ok nixDoc => Except.ok (mergeDocs meta ubuntuDoc nixDoc)

end UbuntuNixSbom

namespace UbuntuNixSbom

/-! ## The Ubuntu document assembler (`Generator.Generate`, ubuntu generator)

Package enumeration, copyright-file reads and checksum subprocesses are
I/O; the package list and the per-package checksum outcome (the empty
string on failure) enter as parameters. -/

/-- One enumerated dpkg package (fields already extracted from the
tab-delimited query output; license/copyright already read). -/
structure DpkgPackage where
  Name : Str
  Version : Str
  Architecture : Str
  Status : Str
  Maintainer : Str
  Homepage : Str
  Description : Str
  License : Str
  Copyright : Str
deriving DecidableEq

/-- `sanitizeName` (ubuntu generator): replace characters outside
`[a-zA-Z0-9-.]` by `-`. -/
def sanitizeName (name : Str) : Str :=
  name.map (fun c => if c.isAlpha || c.isDigit || c = '-' || c = '.' then c else '-')

/-- Decimal rendering of the 1-based package ordinal. -/
def natToStr (n : Nat) : Str := (toString n).toList

/-- `packageToSPDX` (ubuntu generator).  `checksum` is the
`calculatePackageChecksum` outcome (empty on failure). -/
def packageToSPDX (pkg : DpkgPackage) (id : Nat) (includeFiles : Bool) (checksum : Str) :
    Package :=
  { SPDXID := str "SPDXRef-Ubuntu-Package-" ++ natToStr id ++ '-' :: sanitizeName pkg.Name
  , Name := pkg.Name
  , PackageVersion := pkg.Version
  , DownloadLocation := NOASSERTION
  , FilesAnalyzed := false
  , VerificationCode := none
  , LicenseConcluded := pkg.License
  , LicenseDeclared := pkg.License
  , CopyrightText := pkg.Copyright
  , Description := pkg.Description
  , HomePage := if pkg.Homepage ≠ [] ∧ pkg.Homepage ≠ str "(none)" then pkg.Homepage else []
  , Supplier :=
      if pkg.Maintainer ≠ [] ∧ pkg.Maintainer ≠ str "(none)"
      then str "Organization: " ++ pkg.Maintainer else []
  , ExternalRefs :=
      [ { Category := str "PACKAGE-MANAGER"
        , RefType := str "purl"
        , Locator := str "pkg:deb/ubuntu/" ++ pkg.Name ++ '@' :: pkg.Version ++
            str "?arch=" ++ pkg.Architecture } ]
  , Checksums :=
      if includeFiles && checksum ≠ [] then [{ Algorithm := str "SHA256", Value := checksum }]
      else [] }

/-- The root package of the generated Ubuntu document. -/
def ubuntuRootPkg : Package :=
  { SPDXID := str "SPDXRef-Ubuntu-System"
  , Name := str "Ubuntu-System"
  , DownloadLocation := NOASSERTION
  , FilesAnalyzed := false
  , VerificationCode := none
  , Checksums := []
  , HomePage := []
  , LicenseConcluded := NOASSERTION
  , LicenseDeclared := NOASSERTION
  , CopyrightText := NOASSERTION
  , Description := []
  , PackageVersion := []
  , Supplier := []
  , ExternalRefs := [] }

/-- The per-package loop of `Generate`, accumulating SPDX packages;
`i` is the 0-based loop index (`i+1` is passed to `packageToSPDX`).
`cks` maps a package name to its checksum outcome. -/
def genPackages (incl : Bool) (cks : Str → Str) : Nat → List DpkgPackage → List Package
  | _, [] => []
  | i, pkg :: pkgs =>
    packageToSPDX pkg (i + 1) incl (cks pkg.Name) :: genPackages incl cks (i + 1) pkgs

/-- The per-package loop of `Generate`, accumulating CONTAINS
relationships from the Ubuntu root. -/
def genRelationships (incl : Bool) (cks : Str → Str) : Nat → List DpkgPackage → List Relationship
  | _, [] => []
  | i, pkg :: pkgs =>
    { SPDXElementID := str "SPDXRef-Ubuntu-System"
    , RelatedSPDXElement := (packageToSPDX pkg (i + 1) incl (cks pkg.Name)).SPDXID
    , RelationshipType := str "CONTAINS" } :: genRelationships incl cks (i + 1) pkgs

/-- The DESCRIBES relationship of the generated Ubuntu document. -/
def ubuntuDescribesRel : Relationship :=
  { SPDXElementID := str "SPDXRef-DOCUMENT"
  , RelatedSPDXElement := str "SPDXRef-Ubuntu-System"
  , RelationshipType := str "DESCRIBES" }

/-- The clock-derived strings of the generated document. -/
structure GenMeta where
  Name : Str
  DocumentNamespace : Str
  Created : Str
deriving DecidableEq

/-- The document-assembly part of `Generator.Generate`: the root package,
one package and one CONTAINS relationship per enumerated package, and a
final DESCRIBES relationship.  Progress printing is a side effect that
never touches the document and is omitted. -/
def generate (meta : GenMeta) (incl : Bool) (cks : Str → Str)
    (packages : List DpkgPackage) : Document :=
  { SPDXVersion := str "SPDX-2.3"
  , DataLicense := str "CC0-1.0"
  , SPDXID := str "SPDXRef-DOCUMENT"
  , Name := meta.Name
  , DocumentNamespace := meta.DocumentNamespace
  , CreationInfo :=
      { Created := meta.Created
      , Creators := [str "Tool: ubuntu-sbom-generator-1.0"]
      , LicenseListVersion := str "3.20" }
  , Packages := ubuntuRootPkg :: genPackages incl cks 0 packages
  , Relationships := genRelationships incl cks 0 packages ++ [ubuntuDescribesRel] }

end UbuntuNixSbom

namespace UbuntuNixSbom

/-! ## Auxiliary predicate: character bound of a regular expression -/

/-- Every character class of the regular expression implies `P`. -/
def REChars (P : Char → Bool) : RE → Prop
  | .emp => True
  | .eps => True
  | .chr p => ∀ c, p c = true → P c = true
  | .cat a b => REChars P a ∧ REChars P b
  | .alt a b => REChars P a ∧ REChars P b
  | .star a => REChars P a

/-- The characters a string matching the SPDX-expression pattern can
contain: token characters or whitespace. -/
def allowedSPDXChar (c : Char) : Bool := tokenChar c || wsChar c

/-! ## Concrete instances used by counterexamples and witnesses -/

/-- A placeholder for the merged document's clock-derived strings. -/
def metaEx : MergeMeta := { Name := [], DocumentNamespace := [], Created := [] }

/-- A placeholder for the generated document's clock-derived strings. -/
def genMetaEx : GenMeta := { Name := [], DocumentNamespace := [], Created := [] }

/-- A package whose fields are all empty. -/
def emptyPkg : Package :=
  { SPDXID := [], Name := [], DownloadLocation := [], FilesAnalyzed := false
  , VerificationCode := none, Checksums := [], HomePage := [], LicenseConcluded := []
  , LicenseDeclared := [], CopyrightText := [], Description := [], PackageVersion := []
  , Supplier := [], ExternalRefs := [] }

/-- An otherwise-empty package with the given identifier. -/
def pkgWithId (id : Str) : Package := { emptyPkg with SPDXID := id }

/-- A document with no packages. -/
def emptyDocEx : Document :=
  { SPDXVersion := [], DataLicense := [], SPDXID := [], Name := [], DocumentNamespace := []
  , CreationInfo := { Created := [], Creators := [], LicenseListVersion := [] }
  , Packages := [], Relationships := [] }

/-- An Ubuntu input document whose two package identifiers collide after
tagging: `SPDXRef-foo` is rewritten to `SPDXRef-Ubuntu-foo`, which the
second package already carries. -/
def dupUbuntuDocEx : Document :=
  { emptyDocEx with
    Packages := [pkgWithId (str "SPDXRef-foo"), pkgWithId (str "SPDXRef-Ubuntu-foo")] }

/-- A sample enumerated dpkg package. -/
def dpkgEx : DpkgPackage :=
  { Name := str "bash", Version := str "5.1", Architecture := str "amd64"
  , Status := str "install ok installed", Maintainer := [], Homepage := []
  , Description := str "GNU Bourne Again SHell", License := str "GPL-3.0-only"
  , Copyright := NOASSERTION }

/-- A checksum oracle reporting failure for every package. -/
def cksNone : Str → Str := fun _ => []

/-- A sample purl external reference. -/
def purlRefEx : ExternalRef :=
  { Category := str "PACKAGE-MANAGER", RefType := str "purl"
  , Locator := str "pkg:deb/ubuntu/bash@5.1?arch=amd64" }

/-- A sample malformed CPE external reference. -/
def cpeRefEx : ExternalRef :=
  { Category := str "SECURITY", RefType := str "cpe23Type"
  , Locator := str "cpe:2.3:a:pg_cron:pg_cron::*:*:*:*:*:*:*" }

/-- A sample external-reference list. -/
def refsEx : List ExternalRef := [purlRefEx, cpeRefEx]

/-- The CONTAINS relationship generated for `dpkgEx` at ordinal 1. -/
def containsRelEx : Relationship :=
  { SPDXElementID := str "SPDXRef-Ubuntu-System"
  , RelatedSPDXElement := str "SPDXRef-Ubuntu-Package-1-bash"
  , RelationshipType := str "CONTAINS" }

end UbuntuNixSbom

namespace UbuntuNixSbom

/-! ## Basic facts about `List.isPrefixOf` -/

theorem isPrefixOf_append_self (l r : Str) : l.isPrefixOf (l ++ r) = true := by
  rw [ List.isPrefixOf_iff_prefix]
  exact List.prefix_append l r

theorem isPrefixOf_total (u v s : Str) (hu : u.isPrefixOf s = true)
    (hv : v.isPrefixOf s = true) (hlen : u.length ≤ v.length) : u.isPrefixOf v = true := by
  rw [ List.isPrefixOf_iff_prefix] at hu hv ⊢
  exact List.prefix_of_prefix_length_le hu hv hlen

/-! ## Concrete evaluations of the normalizer and repairer -/

/-- C5: the five stated equalities of the license normalizer:
`normalize("GPL-2") = "GPL-2.0-only"`, `normalize("expat") = "MIT"`,
`normalize("") = "NOASSERTION"`,
`normalize("Copyright (c) Jane Doe") = "NOASSERTION"`, and
`normalize("MIT") = "MIT"` (passed through by the grammar check). -/
theorem normalizeLicense_examples :
    normalizeLicense (str "GPL-2") = str "GPL-2.0-only" ∧
    normalizeLicense (str "expat") = str "MIT" ∧
    normalizeLicense (str "") = str "NOASSERTION" ∧
    normalizeLicense (str "Copyright (c) Jane Doe") = str "NOASSERTION" ∧
    normalizeLicense (str "MIT") = str "MIT" := by
  decide

/-- C6: repairing `cpe:2.3:a:pg_cron:pg_cron::*:*:*:*:*:*:*` produces the
13-component string `cpe:2.3:a:pg-cron:pg-cron:*:*:*:*:*:*:*:*` (vendor and
product from the shared value with underscores replaced by hyphens, version
set to wildcard, 8 trailing wildcard fields). -/
theorem fixCPE_pg_cron :
    repairLocator (str "cpe:2.3:a:pg_cron:pg_cron::*:*:*:*:*:*:*")
      = str "cpe:2.3:a:pg-cron:pg-cron:*:*:*:*:*:*:*:*" ∧
    (splitOnColon (str "cpe:2.3:a:pg-cron:pg-cron:*:*:*:*:*:*:*:*")).length = 13 := by
  decide

/-- C1 counterexample: the normalizer DOES return raw input containing the
disqualifying substring "Copyright": the input "Copyright" is a single
grammar token, so the step-4 grammar check passes it through before the
disqualifying-substring check of step 5 is ever reached. -/
theorem normalizeLicense_copyright_counterexample :
    normalizeLicense (str "Copyright") = str "Copyright" ∧
    containsInvalidPattern (str "Copyright") = true := by
  decide

/-- C2 counterexample: the locator `a:b:c:d` has 4 colon-delimited
components (not fewer than 4), yet the repair step returns it untouched —
because it does not start with `cpe:2.3:` — and it fails CPE validation;
so the untouched case is not characterized by "fewer than 4 components". -/
theorem repairLocator_untouched_counterexample :
    repairLocator (str "a:b:c:d") = str "a:b:c:d" ∧
    cpeValid (str "a:b:c:d") = false ∧
    (splitOnColon (str "a:b:c:d")).length = 4 := by
  decide

/-- C3 counterexample: merging a document whose packages are
`SPDXRef-foo` and `SPDXRef-Ubuntu-foo` with an empty document yields two
packages with the identical identifier `SPDXRef-Ubuntu-foo` — tagging makes
identifiers collide within one input document. -/
theorem mergeDocs_duplicate_counterexample :
    ¬ (((mergeDocs metaEx dupUbuntuDocEx emptyDocEx).Packages.map
          (fun p => p.SPDXID)).Nodup) := by
  decide

end UbuntuNixSbom

namespace UbuntuNixSbom

/-! ## Identifier re-namespacing: C9 -/

theorem renumberSPDXID_eq_some (id tag base : Str) (h : afterMarker id = some base) :
    renumberSPDXID id tag = spdxMarker ++ tag ++ '-' :: base := by
  simp [renumberSPDXID, h]

theorem renumberSPDXID_eq_none (id tag : Str) (h : afterMarker id = none) :
    renumberSPDXID id tag = spdxMarker ++ tag ++ '-' :: trimMarker id := by
  simp [renumberSPDXID, h]

theorem renumber_tag_isPrefixOf (id tag : Str) :
    (spdxMarker ++ tag ++ ['-']).isPrefixOf (renumberSPDXID id tag) = true := by
  cases h : afterMarker id with
  | some base =>
    rw [renumberSPDXID_eq_some id tag base h,
      show spdxMarker ++ tag ++ '-' :: base = (spdxMarker ++ tag ++ ['-']) ++ base by simp]
    exact isPrefixOf_append_self _ _
  | none =>
    rw [renumberSPDXID_eq_none id tag h,
      show spdxMarker ++ tag ++ '-' :: trimMarker id
          = (spdxMarker ++ tag ++ ['-']) ++ trimMarker id by simp]
    exact isPrefixOf_append_self _ _

/-- C9: for every identifier and tag, `renumberSPDXID` returns a string
beginning with `SPDXRef-<tag>-`; and whenever the unanchored `SPDXRef-(.+)`
regex matches (`afterMarker` returns a capture) — including when the marker
sits in the interior of the identifier — the result is `SPDXRef-<tag>-`
followed by the capture, so any characters before the marker are
discarded. -/
theorem renumberSPDXID_tag_marker (id tag : Str) :
    (spdxMarker ++ tag ++ ['-']).isPrefixOf (renumberSPDXID id tag) = true ∧
    (∀ base, afterMarker id = some base →
      renumberSPDXID id tag = spdxMarker ++ tag ++ '-' :: base) := by
  exact ⟨renumber_tag_isPrefixOf id tag, fun base h => renumberSPDXID_eq_some id tag base h⟩

/-- Witness for C9 at the identifier `xxSPDXRef-abc` and tag `Nix`. -/
theorem renumberSPDXID_tag_marker_witness :
    (spdxMarker ++ str "Nix" ++ ['-']).isPrefixOf
        (renumberSPDXID (str "xxSPDXRef-abc") (str "Nix")) = true ∧
    renumberSPDXID (str "xxSPDXRef-abc") (str "Nix") = str "SPDXRef-Nix-abc" := by
  refine ⟨(renumberSPDXID_tag_marker (str "xxSPDXRef-abc") (str "Nix")).1, ?_⟩
  have h := (renumberSPDXID_tag_marker (str "xxSPDXRef-abc") (str "Nix")).2 (str "abc") (by decide)
  exact h.trans (by decide)

/-! ## Merge failure behaviour: C8 -/

/-- C8: if either merge input fails to load as a well-formed document (the
file read or the JSON decoding fails), `Merge` returns an error and
produces no merged document. -/
theorem mergeRun_aborts_on_load_error (meta : MergeMeta) (ua nb : LoadResult)
    (h : (∃ e, ua = Except.error e) ∨ (∃ e, nb = Except.error e)) :
    ∃ msg, mergeRun meta ua nb = Except.error msg := by
  cases ua with
  | error e => exact ⟨_, rfl⟩
  | ok a =>
    cases nb with
    | error e => exact ⟨_, rfl⟩
    | ok b => rcases h with ⟨e, he⟩ | ⟨e, he⟩ <;> exact absurd he (by simp)

/-- Witness for C8: a failing Ubuntu-side load aborts the merge. -/
theorem mergeRun_aborts_on_load_error_witness :
    ∃ msg, mergeRun metaEx (Except.error (str "no such file"))
        (Except.ok emptyDocEx) = Except.error msg :=
  mergeRun_aborts_on_load_error metaEx _ _ (Or.inl ⟨_, rfl⟩)

/-! ## External-reference cleaning frame: C10 -/

/-- C10: the CPE-cleaning pass preserves the length and order of the
reference list; every reference keeps its `Category` and `Type` fields, and
a reference whose type is not `cpe23Type` is returned entirely
unchanged — only the `Locator` of `cpe23Type` references may be
rewritten. -/
theorem cleanExternalRefs_frame (refs : List ExternalRef) :
    (cleanExternalRefs refs).length = refs.length ∧
    (∀ (i : Nat) (r : ExternalRef), refs[i]? = some r →
      ∃ r', (cleanExternalRefs refs)[i]? = some r' ∧
        r'.Category = r.Category ∧ r'.RefType = r.RefType ∧
        (r.RefType ≠ cpe23Type → r' = r)) := by
  induction refs with
  | nil =>
    refine ⟨rfl, ?_⟩
    intro i r h
    simp at h
  | cons a as ih =>
    constructor
    · simpa [cleanExternalRefs] using ih.1
    · intro i r h
      cases i with
      | zero =>
        simp at h
        subst h
        by_cases ht : a.RefType = cpe23Type
        · by_cases hv : cpeValid a.Locator = true
          · exact ⟨a, by simp [cleanExternalRefs, ht, hv], rfl, rfl, fun _ => rfl⟩
          · exact ⟨{ a with Locator := fixCPEFormat a.Locator },
              by simp [cleanExternalRefs, ht, hv], rfl, rfl, fun hc => absurd ht hc⟩
        · exact ⟨a, by simp [cleanExternalRefs, ht], rfl, rfl, fun _ => rfl⟩
      | succ n =>
        simp only [List.getElem?_cons_succ] at h
        obtain ⟨r', h1, h2⟩ := ih.2 n r h
        exact ⟨r', by simpa [cleanExternalRefs] using h1, h2⟩

/-- Witness for C10 at a two-element reference list, extracting the frame
facts for the non-CPE reference at index 0. -/
theorem cleanExternalRefs_frame_witness :
    (cleanExternalRefs refsEx).length = refsEx.length ∧
    ∃ r', (cleanExternalRefs refsEx)[0]? = some r' ∧
      r'.Category = purlRefEx.Category ∧ r'.RefType = purlRefEx.RefType ∧
      (purlRefEx.RefType ≠ cpe23Type → r' = purlRefEx) := by
  refine ⟨(cleanExternalRefs_frame refsEx).1, ?_⟩
  exact (cleanExternalRefs_frame refsEx).2 0 purlRefEx (by decide)

end UbuntuNixSbom

namespace UbuntuNixSbom

theorem genPackages_length (incl : Bool) (cks : Str → Str) :
    ∀ (i : Nat) (pkgs : List DpkgPackage),
      (genPackages incl cks i pkgs).length = pkgs.length := by
  intro i pkgs
  induction pkgs generalizing i with
  | nil => rfl
  | cons p ps ih => simp [genPackages, ih]

theorem genRelationships_eq_map (incl : Bool) (cks : Str → Str) :
    ∀ (i : Nat) (pkgs : List DpkgPackage),
      genRelationships incl cks i pkgs
        = (genPackages incl cks i pkgs).map (fun p =>
            { SPDXElementID := str "SPDXRef-Ubuntu-System"
            , RelatedSPDXElement := p.SPDXID
            , RelationshipType := str "CONTAINS" }) := by
  intro i pkgs
  induction pkgs generalizing i with
  | nil => rfl
  | cons p ps ih => simp [genRelationships, genPackages, ih]

/-- C7: assembling `N` enumerated packages yields `N+1` packages (root
included), exactly `N` CONTAINS relationships — each from the Ubuntu root
to one input package — exactly one DESCRIBES relationship from the document
to the root, and no relationships of any other kind. -/
theorem generate_counts (meta : GenMeta) (incl : Bool) (cks : Str → Str)
    (pkgs : List DpkgPackage) :
    (generate meta incl cks pkgs).Packages.length = pkgs.length + 1 ∧
    ((generate meta incl cks pkgs).Relationships.filter
        (fun r => r.RelationshipType = str "CONTAINS")).length = pkgs.length ∧
    (generate meta incl cks pkgs).Relationships.filter
        (fun r => r.RelationshipType = str "DESCRIBES") = [ubuntuDescribesRel] ∧
    (∀ r ∈ (generate meta incl cks pkgs).Relationships,
        r.RelationshipType = str "CONTAINS" ∨ r.RelationshipType = str "DESCRIBES") ∧
    (∀ r ∈ (generate meta incl cks pkgs).Relationships,
        r.RelationshipType = str "CONTAINS" →
        r.SPDXElementID = str "SPDXRef-Ubuntu-System" ∧
        r.RelatedSPDXElement ∈ ((generate meta incl cks pkgs).Packages.drop 1).map
          (fun p => p.SPDXID)) := by
  have hpk : (generate meta incl cks pkgs).Packages
      = ubuntuRootPkg :: genPackages incl cks 0 pkgs := rfl
  have hrel : (generate meta incl cks pkgs).Relationships
      = (genPackages incl cks 0 pkgs).map (fun p =>
          ({ SPDXElementID := str "SPDXRef-Ubuntu-System"
           , RelatedSPDXElement := p.SPDXID
           , RelationshipType := str "CONTAINS" } : Relationship)) ++ [ubuntuDescribesRel] := by
    show genRelationships incl cks 0 pkgs ++ [ubuntuDescribesRel] = _
    rw [genRelationships_eq_map]
  refine ⟨?_, ?_, ?_, ?_, ?_⟩
  · rw [hpk]
    simp [genPackages_length]
  · rw [hrel, List.filter_append]
    have h1 : ((genPackages incl cks 0 pkgs).map (fun p =>
        ({ SPDXElementID := str "SPDXRef-Ubuntu-System"
         , RelatedSPDXElement := p.SPDXID
         , RelationshipType := str "CONTAINS" } : Relationship))).filter
          (fun r => r.RelationshipType = str "CONTAINS")
        = (genPackages incl cks 0 pkgs).map (fun p =>
            ({ SPDXElementID := str "SPDXRef-Ubuntu-System"
             , RelatedSPDXElement := p.SPDXID
             , RelationshipType := str "CONTAINS" } : Relationship)) := by
      apply List.filter_eq_self.mpr
      intro r hr
      obtain ⟨p, _, rfl⟩ := List.mem_map.1 hr
      simp
    have h2 : ([ubuntuDescribesRel].filter
        (fun r => r.RelationshipType = str "CONTAINS")) = [] := by decide
    rw [h1, h2]
    simp [genPackages_length]
  · rw [hrel, List.filter_append]
    have h1 : ((genPackages incl cks 0 pkgs).map (fun p =>
        ({ SPDXElementID := str "SPDXRef-Ubuntu-System"
         , RelatedSPDXElement := p.SPDXID
         , RelationshipType := str "CONTAINS" } : Relationship))).filter
          (fun r => r.RelationshipType = str "DESCRIBES") = [] := by
      apply List.filter_eq_nil_iff.mpr
      intro r hr
      obtain ⟨p, _, rfl⟩ := List.mem_map.1 hr
      simp
      decide
    have h2 : ([ubuntuDescribesRel].filter
        (fun r => r.RelationshipType = str "DESCRIBES")) = [ubuntuDescribesRel] := by decide
    rw [h1, h2]
    rfl
  · intro r hr
    rw [hrel] at hr
    rcases List.mem_append.1 hr with hm | hm
    · obtain ⟨p, _, rfl⟩ := List.mem_map.1 hm
      left; rfl
    · rcases List.mem_singleton.1 hm with rfl
      right; rfl
  · intro r hr hc
    rw [hrel] at hr
    rcases List.mem_append.1 hr with hm | hm
    · obtain ⟨p, hp, rfl⟩ := List.mem_map.1 hm
      refine ⟨rfl, ?_⟩
      rw [hpk]
      simpa using ⟨p, hp, rfl⟩
    · rcases List.mem_singleton.1 hm with rfl
      exact absurd hc (by decide)

end UbuntuNixSbom

namespace UbuntuNixSbom

/-- Witness for C7 at a one-package input list. -/
theorem generate_counts_witness :
    (generate genMetaEx false cksNone [dpkgEx]).Packages.length = 2 ∧
    ((generate genMetaEx false cksNone [dpkgEx]).Relationships.filter
        (fun r => r.RelationshipType = str "CONTAINS")).length = 1 ∧
    containsRelEx.SPDXElementID = str "SPDXRef-Ubuntu-System" ∧
    containsRelEx.RelatedSPDXElement ∈
      ((generate genMetaEx false cksNone [dpkgEx]).Packages.drop 1).map (fun p => p.SPDXID) := by
  have h := generate_counts genMetaEx false cksNone [dpkgEx]
  have h5 := h.2.2.2.2 containsRelEx (by decide) (by decide)
  exact ⟨by simpa using h.1, by simpa using h.2.1, h5.1, h5.2⟩

theorem not_both_tags (s : Str) (hu : ubuntuTag.isPrefixOf s = true)
    (hn : nixTag.isPrefixOf s = true) : False := by
  have h := isPrefixOf_total nixTag ubuntuTag s hn hu (by decide)
  exact absurd h (by decide)

theorem processUbuntu_tagged : ∀ (pkgs : List Package), ∀ p ∈ processUbuntuPkgs pkgs,
    ubuntuTag.isPrefixOf p.SPDXID = true := by
  intro pkgs
  induction pkgs with
  | nil => intro p hp; simp [processUbuntuPkgs] at hp
  | cons a as ih =>
    intro p hp
    simp only [processUbuntuPkgs] at hp
    split at hp
    · exact ih p hp
    · rcases List.mem_cons.1 hp with rfl | hm
      · split
        case isTrue h => exact h
        case isFalse h =>
          have hr := renumber_tag_isPrefixOf a.SPDXID (str "Ubuntu")
          rw [show spdxMarker ++ str "Ubuntu" ++ ['-'] = ubuntuTag from by decide] at hr
          exact hr
      · exact ih p hm

theorem processNix_tagged : ∀ (pkgs : List Package), ∀ p ∈ processNixPkgs pkgs,
    nixTag.isPrefixOf p.SPDXID = true := by
  intro pkgs
  induction pkgs with
  | nil => intro p hp; simp [processNixPkgs] at hp
  | cons a as ih =>
    intro p hp
    simp only [processNixPkgs] at hp
    split at hp
    · exact ih p hp
    · rcases List.mem_cons.1 hp with rfl | hm
      · show nixTag.isPrefixOf
          (if nixTag.isPrefixOf a.SPDXID then a
           else { a with SPDXID := renumberSPDXID a.SPDXID (str "Nix") }).SPDXID = true
        split
        case isTrue h => exact h
        case isFalse h =>
          have hr := renumber_tag_isPrefixOf a.SPDXID (str "Nix")
          rw [show spdxMarker ++ str "Nix" ++ ['-'] = nixTag from by decide] at hr
          exact hr
      · exact ih p hm

/-- C3 (amended): the merged document is the synthetic root followed by
the processed Ubuntu and Nix packages; every processed Ubuntu identifier
starts with `SPDXRef-Ubuntu-` and not with `SPDXRef-Nix-`, every processed
Nix identifier starts with `SPDXRef-Nix-` and not with `SPDXRef-Ubuntu-`,
no processed identifier equals the root's, and identifiers never collide
ACROSS the two input documents.  (Collisions within one input document are
possible — see the counterexample.) -/
theorem mergeDocs_namespacing (meta : MergeMeta) (a b : Document) :
    (mergeDocs meta a b).Packages
      = systemPkg :: (processUbuntuPkgs a.Packages ++ processNixPkgs b.Packages) ∧
    (∀ p ∈ processUbuntuPkgs a.Packages,
      ubuntuTag.isPrefixOf p.SPDXID = true ∧ nixTag.isPrefixOf p.SPDXID = false ∧
      p.SPDXID ≠ systemPkg.SPDXID) ∧
    (∀ p ∈ processNixPkgs b.Packages,
      nixTag.isPrefixOf p.SPDXID = true ∧ ubuntuTag.isPrefixOf p.SPDXID = false ∧
      p.SPDXID ≠ systemPkg.SPDXID) ∧
    (∀ p ∈ processUbuntuPkgs a.Packages, ∀ q ∈ processNixPkgs b.Packages,
      p.SPDXID ≠ q.SPDXID) := by
  refine ⟨rfl, ?_, ?_, ?_⟩
  · intro p hp
    have hu := processUbuntu_tagged a.Packages p hp
    refine ⟨hu, ?_, ?_⟩
    · cases hn : nixTag.isPrefixOf p.SPDXID
      · rfl
      · exact absurd (not_both_tags p.SPDXID hu hn) (fun h => h)
    · intro heq
      exact absurd (heq ▸ hu) (by decide)
  · intro p hp
    have hn := processNix_tagged b.Packages p hp
    refine ⟨hn, ?_, ?_⟩
    · cases hu : ubuntuTag.isPrefixOf p.SPDXID
      · rfl
      · exact absurd (not_both_tags p.SPDXID hu hn) (fun h => h)
    · intro heq
      exact absurd (heq ▸ hn) (by decide)
  · intro p hp q hq
    intro heq
    have hu := processUbuntu_tagged a.Packages p hp
    have hn := processNix_tagged b.Packages q hq
    exact not_both_tags q.SPDXID (heq ▸ hu) hn

/-- Witness for C3 at concrete documents. -/
theorem mergeDocs_namespacing_witness :
    (mergeDocs metaEx dupUbuntuDocEx emptyDocEx).Packages
      = systemPkg :: (processUbuntuPkgs dupUbuntuDocEx.Packages
          ++ processNixPkgs emptyDocEx.Packages) ∧
    ubuntuTag.isPrefixOf (pkgWithId (str "SPDXRef-Ubuntu-foo")).SPDXID = true ∧
    nixTag.isPrefixOf (pkgWithId (str "SPDXRef-Ubuntu-foo")).SPDXID = false ∧
    (pkgWithId (str "SPDXRef-Ubuntu-foo")).SPDXID ≠ systemPkg.SPDXID := by
  have h := mergeDocs_namespacing metaEx dupUbuntuDocEx emptyDocEx
  have h2 := h.2.1 (pkgWithId (str "SPDXRef-Ubuntu-foo")) (by decide)
  exact ⟨h.1, h2.1, h2.2.1, h2.2.2⟩

end UbuntuNixSbom

namespace UbuntuNixSbom

/-! ## dropWhile and trimDashes facts -/

theorem dropWhile_head_false (p : Char → Bool) :
    ∀ (l : Str) (c : Char) (r : Str), l.dropWhile p = c :: r → p c = false := by
  intro l
  induction l with
  | nil => intro c r h; cases h
  | cons a as ih =>
    intro c r h
    rw [List.dropWhile_cons] at h
    split at h
    · exact ih c r h
    · injection h with h1 _
      subst h1
      exact Bool.eq_false_iff.mpr (by assumption)

theorem dropWhile_suffix_eq (p : Char → Bool) (l : Str) :
    ∃ pre, l = pre ++ l.dropWhile p := by
  induction l with
  | nil => exact ⟨[], rfl⟩
  | cons a as ih =>
    rw [List.dropWhile_cons]
    split
    · obtain ⟨pre, hpre⟩ := ih
      exact ⟨a :: pre, by rw [List.cons_append, ← hpre]⟩
    · exact ⟨[], rfl⟩

theorem dropWhile_eq_self_of (p : Char → Bool) {l : Str}
    (h : ∀ c r, l = c :: r → p c = false) : l.dropWhile p = l := by
  cases l with
  | nil => rfl
  | cons a as =>
    rw [List.dropWhile_cons, if_neg]
    rw [h a as rfl]
    simp

theorem mem_dropWhile_sub (p : Char → Bool) (l : Str) :
    ∀ c ∈ l.dropWhile p, c ∈ l := by
  intro c hc
  obtain ⟨pre, hpre⟩ := dropWhile_suffix_eq p l
  rw [hpre]
  exact List.mem_append_right _ hc

theorem mem_trimDashes_sub (l : Str) : ∀ c ∈ trimDashes l, c ∈ l := by
  intro c hc
  unfold trimDashes at hc
  rw [List.mem_reverse] at hc
  have h1 := mem_dropWhile_sub _ _ c hc
  rw [List.mem_reverse] at h1
  exact mem_dropWhile_sub _ _ c h1

theorem trimDashes_head (l : Str) :
    ∀ c r, trimDashes l = c :: r → isDash c = false := by
  intro c r h
  obtain ⟨pre, hpre⟩ := dropWhile_suffix_eq isDash (l.dropWhile isDash).reverse
  have hu : l.dropWhile isDash = (trimDashes l) ++ pre.reverse := by
    have := congrArg List.reverse hpre
    rw [List.reverse_reverse, List.reverse_append] at this
    exact this
  rw [h] at hu
  exact dropWhile_head_false isDash l c (r ++ pre.reverse) (by rw [hu]; rfl)

theorem trimDashes_rev_head (l : Str) :
    ∀ c r, (trimDashes l).reverse = c :: r → isDash c = false := by
  intro c r h
  unfold trimDashes at h
  rw [List.reverse_reverse] at h
  exact dropWhile_head_false isDash _ c r h

theorem trimDashes_fixpoint (t : Str)
    (h1 : ∀ c r, t = c :: r → isDash c = false)
    (h2 : ∀ c r, t.reverse = c :: r → isDash c = false) : trimDashes t = t := by
  unfold trimDashes
  rw [dropWhile_eq_self_of isDash h1, dropWhile_eq_self_of isDash h2]
  exact List.reverse_reverse t

theorem map_id_of (f : Char → Char) (l : Str) (h : ∀ c ∈ l, f c = c) : l.map f = l := by
  induction l with
  | nil => rfl
  | cons a as ih =>
    rw [List.map_cons, h a (List.mem_cons_self a as), ih (fun c hc => h c (List.mem_cons_of_mem a hc))]

/-! ## sanitizeCPEComponent facts -/

theorem sanitize_eq_star_or (s : Str) :
    sanitizeCPEComponent s = starStr ∨
    (sanitizeCPEComponent s = trimDashes ((s.map underscoreToDash).map
        (fun c => if isCPEKeep c then c else '-')) ∧ sanitizeCPEComponent s ≠ []) := by
  simp only [sanitizeCPEComponent]
  split
  · left; rfl
  · split
    · left; rfl
    · right
      exact ⟨rfl, by assumption⟩

theorem sanitize_ne_nil (s : Str) : sanitizeCPEComponent s ≠ [] := by
  rcases sanitize_eq_star_or s with h | ⟨_, h⟩
  · rw [h]; decide
  · exact h

theorem mem_sanitize_keep (s : Str) : ∀ c ∈ sanitizeCPEComponent s, isCPEKeep c = true := by
  rcases sanitize_eq_star_or s with h | ⟨h, _⟩
  · rw [h]
    intro c hc
    rcases List.mem_singleton.1 hc with rfl
    decide
  · rw [h]
    intro c hc
    have hm := mem_trimDashes_sub _ c hc
    obtain ⟨a, _, rfl⟩ := List.mem_map.1 hm
    split
    · assumption
    · decide

theorem sanitize_noColon (s : Str) : ':' ∉ sanitizeCPEComponent s := by
  intro h
  exact absurd (mem_sanitize_keep s ':' h) (by decide)

theorem sanitize_of_clean (t : Str) (hne : t ≠ [])
    (hnous : t.map underscoreToDash = t)
    (hkeepmap : t.map (fun c => if isCPEKeep c then c else '-') = t)
    (htrim : trimDashes t = t)
    (hts : t ≠ starStr) :
    sanitizeCPEComponent t = t := by
  simp only [sanitizeCPEComponent, hnous, hkeepmap, htrim]
  simp [hne, hts]

theorem sanitize_idem (s : Str) :
    sanitizeCPEComponent (sanitizeCPEComponent s) = sanitizeCPEComponent s := by
  rcases sanitize_eq_star_or s with h | ⟨h, hne⟩
  · rw [h]; decide
  · have hkeep : ∀ c ∈ sanitizeCPEComponent s, isCPEKeep c = true := mem_sanitize_keep s
    by_cases hts : sanitizeCPEComponent s = starStr
    · rw [hts]; decide
    · apply sanitize_of_clean _ hne
      · apply map_id_of
        intro c hc
        unfold underscoreToDash
        split
        · exact absurd (hkeep c hc) (by subst (by assumption : c = '_'); decide)
        · rfl
      · apply map_id_of
        intro c hc
        rw [if_pos (hkeep c hc)]
      · apply trimDashes_fixpoint
        · rw [h]; exact trimDashes_head _
        · rw [h]; exact trimDashes_rev_head _
      · exact hts

end UbuntuNixSbom

namespace UbuntuNixSbom

/-! ## splitOnColon facts -/

theorem splitOnColon_ne_nil (s : Str) : splitOnColon s ≠ [] := by
  induction s with
  | nil => simp [splitOnColon]
  | cons c cs ih =>
    simp only [splitOnColon]
    split
    · simp
    · cases h : splitOnColon cs with
      | nil => exact absurd h ih
      | cons t ts => simp

theorem mem_splitOnColon_noColon (s : Str) : ∀ t ∈ splitOnColon s, ':' ∉ t := by
  induction s with
  | nil =>
    intro t ht
    rcases List.mem_singleton.1 ht with rfl
    simp
  | cons c cs ih =>
    intro t ht
    simp only [splitOnColon] at ht
    by_cases hc : c = ':'
    · rw [if_pos hc] at ht
      rcases List.mem_cons.1 ht with rfl | hm
      · simp
      · exact ih t hm
    · rw [if_neg hc] at ht
      cases hsp : splitOnColon cs with
      | nil => exact absurd hsp (splitOnColon_ne_nil cs)
      | cons u us =>
        rw [hsp] at ht
        rcases List.mem_cons.1 ht with rfl | hm
        · intro hmem
          rcases List.mem_cons.1 hmem with h2 | hm2
          · exact hc h2.symm
          · exact ih u (by rw [hsp]; exact List.mem_cons_self u us) hm2
        · exact ih t (by rw [hsp]; exact List.mem_cons_of_mem u hm)

theorem splitOnColon_append (p rest : Str) (hp : ':' ∉ p) :
    splitOnColon (p ++ ':' :: rest) = p :: splitOnColon rest := by
  induction p with
  | nil =>
    simp only [List.nil_append, splitOnColon, if_pos]
  | cons c cs ih =>
    have hc : ¬ c = ':' := fun h => hp (by rw [← h] at *; exact List.mem_cons_self c cs)
    have hcs : ':' ∉ cs := fun hm => hp (List.mem_cons_of_mem c hm)
    simp only [List.cons_append, splitOnColon, if_neg hc, List.append_eq]
    rw [ih hcs]

theorem getD_mem_splitOnColon (s : Str) (n : Nat) (h : n < (splitOnColon s).length) :
    ':' ∉ (splitOnColon s).getD n [] := by
  rw [List.getD_eq_getElem _ _ h]
  exact mem_splitOnColon_noColon s _ (List.getElem_mem h)

/-! ## buildCPE facts -/

theorem buildCPE_split (p v pr ver : Str) (hp : ':' ∉ p) (hv : ':' ∉ v)
    (hpr : ':' ∉ pr) (hver : ':' ∉ ver) :
    splitOnColon (buildCPE p v pr ver)
      = [str "cpe", str "2.3", p, v, pr, ver,
         starStr, starStr, starStr, starStr, starStr, starStr, starStr] := by
  unfold buildCPE
  rw [splitOnColon_append (str "cpe") _ (by decide),
      splitOnColon_append (str "2.3") _ (by decide),
      splitOnColon_append p _ hp, splitOnColon_append v _ hv,
      splitOnColon_append pr _ hpr, splitOnColon_append ver _ hver,
      show splitOnColon (str "*:*:*:*:*:*:*")
          = [starStr, starStr, starStr, starStr, starStr, starStr, starStr] from by decide]

theorem buildCPE_header_isPrefixOf (p v pr ver : Str) :
    cpeHeader.isPrefixOf (buildCPE p v pr ver) = true := by
  rw [show buildCPE p v pr ver = cpeHeader ++ (p ++ ':' :: (v ++ ':' :: (pr ++ ':' ::
      (ver ++ ':' :: str "*:*:*:*:*:*:*")))) from rfl]
  exact isPrefixOf_append_self _ _

/-! ## fixCPEFormat characterization -/

theorem fixCPEFormat_unrepairable_noHeader (x : Str)
    (h : cpeHeader.isPrefixOf x = false) : fixCPEFormat x = x := by
  simp only [fixCPEFormat]
  rw [if_pos h]

theorem fixCPEFormat_unrepairable_short (x : Str) (h1 : cpeHeader.isPrefixOf x = true)
    (h2 : (splitOnColon x).length < 4) : fixCPEFormat x = x := by
  simp only [fixCPEFormat]
  rw [if_neg (by simp [h1]), if_pos h2]

theorem fixCPEFormat_eq_build (x : Str) (h1 : cpeHeader.isPrefixOf x = true)
    (h2 : ¬ (splitOnColon x).length < 4) :
    fixCPEFormat x = buildCPE ((splitOnColon x).getD 2 [])
      (sanitizeCPEComponent (selectVPV (splitOnColon x)).1)
      (sanitizeCPEComponent (selectVPV (splitOnColon x)).2.1)
      (sanitizeCPEComponent (selectVPV (splitOnColon x)).2.2) := by
  simp only [fixCPEFormat]
  rw [if_neg (by simp [h1]), if_neg h2]

theorem selectVPV_13 (p A B C : Str) (hCne : C ≠ []) :
    selectVPV [str "cpe", str "2.3", p, A, B, C,
        starStr, starStr, starStr, starStr, starStr, starStr, starStr] = (A, B, C) := by
  by_cases hab : A = B <;> by_cases hcs : C = starStr <;>
    simp [selectVPV, hab, hcs, hCne, List.getD_cons_succ, List.getD_cons_zero]

/-! ## The repair operation is a no-op on its own output -/

theorem repairLocator_fixed_point (p a b c : Str) (hp : ':' ∉ p) :
    repairLocator (buildCPE p (sanitizeCPEComponent a) (sanitizeCPEComponent b)
        (sanitizeCPEComponent c))
      = buildCPE p (sanitizeCPEComponent a) (sanitizeCPEComponent b)
          (sanitizeCPEComponent c) := by
  by_cases hval : cpeValid (buildCPE p (sanitizeCPEComponent a) (sanitizeCPEComponent b)
      (sanitizeCPEComponent c)) = true
  · simp [repairLocator, hval]
  · have hrl : repairLocator (buildCPE p (sanitizeCPEComponent a) (sanitizeCPEComponent b)
        (sanitizeCPEComponent c)) = fixCPEFormat (buildCPE p (sanitizeCPEComponent a)
        (sanitizeCPEComponent b) (sanitizeCPEComponent c)) := by
      simp [repairLocator, hval]
    have hsplit := buildCPE_split p (sanitizeCPEComponent a) (sanitizeCPEComponent b)
      (sanitizeCPEComponent c) hp (sanitize_noColon a) (sanitize_noColon b) (sanitize_noColon c)
    rw [hrl, fixCPEFormat_eq_build _ (buildCPE_header_isPrefixOf _ _ _ _)
          (by rw [hsplit]; simp),
        hsplit, selectVPV_13 _ _ _ _ (sanitize_ne_nil c)]
    show buildCPE ([str "cpe", str "2.3", p, sanitizeCPEComponent a, sanitizeCPEComponent b,
        sanitizeCPEComponent c, starStr, starStr, starStr, starStr, starStr, starStr,
        starStr].getD 2 [])
      (sanitizeCPEComponent (sanitizeCPEComponent a))
      (sanitizeCPEComponent (sanitizeCPEComponent b))
      (sanitizeCPEComponent (sanitizeCPEComponent c)) = _
  
    rw [sanitize_idem a, sanitize_idem b, sanitize_idem c]
    rfl

/-- C4: the validate-then-fix repair step applied to cpe23Type locators is
idempotent: repairing an already-repaired locator changes nothing.  Valid
or unrepairable inputs are returned unchanged, and a re-derived string is
itself a fixed point: it re-splits into its 13 components, the
vendor/product/version selection returns the same sanitized fields
(sanitizing is idempotent), and the same string is rebuilt. -/
theorem repairLocator_idempotent (x : Str) :
    repairLocator (repairLocator x) = repairLocator x := by
  by_cases hval : cpeValid x = true
  · simp [repairLocator, hval]
  · have hrx : repairLocator x = fixCPEFormat x := by simp [repairLocator, hval]
    by_cases hh : cpeHeader.isPrefixOf x = true
    · by_cases hlen : (splitOnColon x).length < 4
      · have hfix := fixCPEFormat_unrepairable_short x hh hlen
        rw [hrx, hfix]
        exact hrx.trans hfix
      · have hfix := fixCPEFormat_eq_build x hh hlen
        have hp2 : ':' ∉ (splitOnColon x).getD 2 [] := by
          apply getD_mem_splitOnColon
          omega
        rw [hrx, hfix]
        exact repairLocator_fixed_point _ _ _ _ hp2
    · have hfix := fixCPEFormat_unrepairable_noHeader x (Bool.eq_false_iff.mpr hh)
      rw [hrx, hfix]
      exact hrx.trans hfix

end UbuntuNixSbom

namespace UbuntuNixSbom

/-- C2 (amended): the repair step returns either the untouched original —
in particular whenever the input already passes CPE validation, does not
begin with `cpe:2.3:`, or splits into fewer than 4 colon components — or a
re-derived string `cpe:2.3:<part>:<vendor>:<product>:<version>:*:*:*:*:*:*:*`
with sanitized vendor/product/version fields and exactly 13 colon
components.  (The original claim's "untouched exactly when fewer than 4
components" and "output always passes full validation" both fail — see the
counterexample.) -/
theorem repairLocator_spec (s : Str) :
    (repairLocator s = s ∨
      (∃ a b c, repairLocator s = buildCPE ((splitOnColon s).getD 2 [])
          (sanitizeCPEComponent a) (sanitizeCPEComponent b) (sanitizeCPEComponent c) ∧
        (splitOnColon (repairLocator s)).length = 13)) ∧
    (cpeValid s = true → repairLocator s = s) ∧
    (cpeHeader.isPrefixOf s = false → repairLocator s = s) ∧
    ((splitOnColon s).length < 4 → repairLocator s = s) := by
  have hval2 : cpeValid s = true → repairLocator s = s := fun h => by simp [repairLocator, h]
  have hnh : cpeHeader.isPrefixOf s = false → repairLocator s = s := by
    intro h
    by_cases hv : cpeValid s = true
    · exact hval2 hv
    · simp [repairLocator, hv, fixCPEFormat_unrepairable_noHeader s h]
  have hsh : (splitOnColon s).length < 4 → repairLocator s = s := by
    intro h
    by_cases hv : cpeValid s = true
    · exact hval2 hv
    · by_cases hh : cpeHeader.isPrefixOf s = true
      · simp [repairLocator, hv, fixCPEFormat_unrepairable_short s hh h]
      · exact hnh (Bool.eq_false_iff.mpr hh)
  refine ⟨?_, hval2, hnh, hsh⟩
  by_cases hv : cpeValid s = true
  · exact Or.inl (hval2 hv)
  · by_cases hh : cpeHeader.isPrefixOf s = true
    · by_cases hlen : (splitOnColon s).length < 4
      · exact Or.inl (hsh hlen)
      · right
        have hrx : repairLocator s = fixCPEFormat s := by simp [repairLocator, hv]
        have hfix := fixCPEFormat_eq_build s hh hlen
        refine ⟨(selectVPV (splitOnColon s)).1, (selectVPV (splitOnColon s)).2.1,
          (selectVPV (splitOnColon s)).2.2, hrx.trans hfix, ?_⟩
        rw [hrx, hfix, buildCPE_split _ _ _ _ (getD_mem_splitOnColon s 2 (by omega))
          (sanitize_noColon _) (sanitize_noColon _) (sanitize_noColon _)]
        rfl
    · exact Or.inl (hnh (Bool.eq_false_iff.mpr hh))

/-- Witness for C2: the too-short branch and the missing-header branch
both return the input untouched. -/
theorem repairLocator_spec_witness :
    repairLocator (str "cpe:2.3:a") = str "cpe:2.3:a" ∧
    repairLocator (str "a:b:c:d") = str "a:b:c:d" := by
  constructor
  · exact (repairLocator_spec (str "cpe:2.3:a")).2.2.2 (by decide)
  · exact (repairLocator_spec (str "a:b:c:d")).2.2.1 (by decide)

end UbuntuNixSbom

namespace UbuntuNixSbom

theorem REChars_mkAlt {P : Char → Bool} {a b : RE} (ha : REChars P a) (hb : REChars P b) :
    REChars P (RE.mkAlt a b) := by
  cases a <;> cases b <;> first | exact hb | exact ha | exact ⟨ha, hb⟩

theorem REChars_mkCat {P : Char → Bool} {a b : RE} (ha : REChars P a) (hb : REChars P b) :
    REChars P (RE.mkCat a b) := by
  cases a <;> cases b <;> first | exact hb | exact ha | exact ⟨ha, hb⟩

theorem mkAlt_emp_left (b : RE) : RE.mkAlt .emp b = b := by cases b <;> rfl

theorem mkAlt_emp_right (a : RE) : RE.mkAlt a .emp = a := by cases a <;> rfl

theorem mkCat_emp_left (b : RE) : RE.mkCat .emp b = .emp := by cases b <;> rfl

theorem REChars_deriv {P : Char → Bool} {r : RE} (h : REChars P r) (c : Char) :
    REChars P (r.deriv c) := by
  induction r with
  | emp => trivial
  | eps => trivial
  | chr p =>
    simp only [RE.deriv]
    split <;> trivial
  | cat a b iha ihb =>
    simp only [REChars] at h
    apply REChars_mkAlt
    · exact REChars_mkCat (iha h.1) h.2
    · split
      · exact ihb h.2
      · trivial
  | alt a b iha ihb =>
    simp only [REChars] at h
    exact REChars_mkAlt (iha h.1) (ihb h.2)
  | star a iha => exact REChars_mkCat (iha h) h

theorem deriv_emp_of_bad {P : Char → Bool} {r : RE} (h : REChars P r) {c : Char}
    (hc : P c = false) : r.deriv c = RE.emp := by
  induction r with
  | emp => rfl
  | eps => rfl
  | chr p =>
    simp only [RE.deriv]
    rw [if_neg]
    intro hpc
    simp only [REChars] at h
    rw [h c hpc] at hc
    cases hc
  | cat a b iha ihb =>
    simp only [REChars] at h
    simp only [RE.deriv, iha h.1, ihb h.2, ite_self, mkCat_emp_left, mkAlt_emp_left]
  | alt a b iha ihb =>
    simp only [REChars] at h
    simp only [RE.deriv, iha h.1, ihb h.2, mkAlt_emp_left]
  | star a iha =>
    simp only [REChars] at h
    simp only [RE.deriv, iha h, mkCat_emp_left]

theorem matches_cons (r : RE) (c : Char) (cs : Str) :
    RE.matches r (c :: cs) = RE.matches (r.deriv c) cs := rfl

theorem matches_emp (s : Str) : RE.matches RE.emp s = false := by
  induction s with
  | nil => rfl
  | cons c cs ih => exact ih

theorem matches_chars {P : Char → Bool} :
    ∀ (s : Str) (r : RE), REChars P r → RE.matches r s = true → ∀ c ∈ s, P c = true := by
  intro s
  induction s with
  | nil => intro r _ _ c hc; cases hc
  | cons a as ih =>
    intro r hr hm c hc
    by_cases hPa : P a = true
    · rcases List.mem_cons.1 hc with rfl | hmem
      · exact hPa
      · exact ih (r.deriv a) (REChars_deriv hr a) hm c hmem
    · have hPa2 : P a = false := Bool.eq_false_iff.mpr hPa
      rw [matches_cons, deriv_emp_of_bad hr hPa2, matches_emp] at hm
      cases hm

theorem REChars_lit {P : Char → Bool} (s : Str) (h : ∀ c ∈ s, P c = true) :
    REChars P (RE.lit s) := by
  induction s with
  | nil => trivial
  | cons a as ih =>
    refine ⟨?_, ih (fun c hc => h c (List.mem_cons_of_mem a hc))⟩
    intro d hd
    have hda : d = a := by simpa using hd
    rw [hda]
    exact h a (List.mem_cons_self a as)

theorem REChars_spdx : REChars allowedSPDXChar validSPDXPattern := by
  have htok : REChars allowedSPDXChar spdxTokenRE :=
    ⟨fun c hc => by simp [allowedSPDXChar, hc], fun c hc => by simp [allowedSPDXChar, hc]⟩
  have hws : REChars allowedSPDXChar spdxWs :=
    ⟨fun c hc => by simp [allowedSPDXChar, hc], fun c hc => by simp [allowedSPDXChar, hc]⟩
  have hkw : REChars allowedSPDXChar spdxKeyword :=
    ⟨REChars_lit _ (by decide), REChars_lit _ (by decide), REChars_lit _ (by decide)⟩
  exact ⟨htok, hws, hkw, hws, htok⟩

theorem replacements_values_spdx : ∀ kv ∈ replacements, matchesSPDX kv.2 = true := by
  decide

theorem lookupExact_mem_values (key : Str) :
    ∀ (l : List (Str × Str)) (v : Str), lookupExact key l = some v → ∃ k, (k, v) ∈ l := by
  intro l
  induction l with
  | nil => intro v h; cases h
  | cons kv rest ih =>
    obtain ⟨k, w⟩ := kv
    intro v h
    simp only [lookupExact] at h
    split at h
    · injection h with h1
      exact ⟨k, by rw [h1]; exact List.mem_cons_self _ _⟩
    · obtain ⟨k2, hm⟩ := ih v h
      exact ⟨k2, List.mem_cons_of_mem _ hm⟩

theorem lookupByKeyStart_mem_values (key : Str) :
    ∀ (l : List (Str × Str)) (v : Str), lookupByKeyStart key l = some v → ∃ k, (k, v) ∈ l := by
  intro l
  induction l with
  | nil => intro v h; cases h
  | cons kv rest ih =>
    obtain ⟨k, w⟩ := kv
    intro v h
    simp only [lookupByKeyStart] at h
    split at h
    · injection h with h1
      exact ⟨k, by rw [h1]; exact List.mem_cons_self _ _⟩
    · obtain ⟨k2, hm⟩ := ih v h
      exact ⟨k2, List.mem_cons_of_mem _ hm⟩

/-- C1 (amended): for every input, the normalizer's output satisfies the
SPDX-expression grammar (the sentinel NOASSERTION itself matches the
grammar, every table value matches it, and the pass-through branch is
guarded by it); consequently, raw input is returned only when it matches
the grammar, so returned raw input never contains the disqualifying
characters `<`, `>`, apostrophe, or comma.  (The original claim's
"never returns raw input containing any disqualifying substring" fails for
word substrings such as "Copyright" — see the counterexample.) -/
theorem normalizeLicense_grammar (s : Str) :
    matchesSPDX (normalizeLicense s) = true ∧
    (normalizeLicense s = s →
      ('<' ∉ s ∧ '>' ∉ s ∧ Char.ofNat 39 ∉ s ∧ ',' ∉ s)) := by
  have h1 : matchesSPDX (normalizeLicense s) = true := by
    simp only [normalizeLicense]
    split
    · decide
    · cases hE : lookupExact (lowerStr (trimSpace s)) replacements with
      | some v =>
        obtain ⟨k, hm⟩ := lookupExact_mem_values _ _ v hE
        simpa using replacements_values_spdx (k, v) hm
      | none =>
        cases hP : lookupByKeyStart (lowerStr (trimSpace s)) replacements with
        | some v =>
          obtain ⟨k, hm⟩ := lookupByKeyStart_mem_values _ _ v hP
          simpa using replacements_values_spdx (k, v) hm
        | none =>
          cases hG : matchesSPDX (trimSpace s) with
          | true => simp [hG]
          | false =>
            simp [hG]
            decide
  refine ⟨h1, fun heq => ?_⟩
  rw [heq] at h1
  have hall := matches_chars s validSPDXPattern REChars_spdx h1
  exact ⟨fun hm => absurd (hall _ hm) (by decide), fun hm => absurd (hall _ hm) (by decide),
    fun hm => absurd (hall _ hm) (by decide), fun hm => absurd (hall _ hm) (by decide)⟩

/-- Witness for C1 at the input "MIT", which is returned raw. -/
theorem normalizeLicense_grammar_witness :
    matchesSPDX (normalizeLicense (str "MIT")) = true ∧
    ('<' ∉ str "MIT" ∧ '>' ∉ str "MIT" ∧ Char.ofNat 39 ∉ str "MIT" ∧ ',' ∉ str "MIT") :=
  ⟨(normalizeLicense_grammar (str "MIT")).1,
   (normalizeLicense_grammar (str "MIT")).2 (by decide)⟩

end UbuntuNixSbom
